import Mathlib

/-!
Shallow embedding of `src/card_query.py`: the bounded-retry page fetcher
`get_card_transactions` and the pagination driver `get_all_transactions`.
The network is abstracted as an oracle assigning to every attempt the
outcome of the HTTP POST; `time.sleep` calls are recorded as a trace of
durations (Python floats are modelled as rationals).
-/

namespace CardQuery

/-- Values a parsed JSON body may hold at a key, as far as the code
inspects them: an integer (used for the `total` field), an array of opaque
transaction records (used for the `rows` field), or anything else. -/
inductive Jval (Rec : Type) where
  | num (n : Int)
  | arr (xs : List Rec)
  | other
deriving DecidableEq

/-- A parsed JSON object body, modelling the Python dict handled by the
code: an association list from string keys to values (lookup returns the
first binding, matching dict semantics for duplicate-free key lists). -/
abbrev PageD (Rec : Type) := List (String × Jval Rec)

/-- Outcome of one HTTP POST attempt: `exn` models a raised
`requests.exceptions.RequestException`; `resp status body` models a
response with the given status code whose body either parses as a JSON
object (`some page`) or fails to parse (`none`). -/
inductive Outcome (Rec : Type) where
  | exn
  | resp (status : Nat) (body : Option (PageD Rec))
deriving DecidableEq

/-- Result of one `get_card_transactions` call: the returned value
(`none` models Python `None`), the trace of `time.sleep` durations
performed during the call (pacing pause and retry backoffs, in order),
and the number of HTTP requests issued (one per loop attempt). -/
structure FetchRes (Rec : Type) where
  result : Option (PageD Rec)
  sleeps : List ℚ
  requests : Nat
deriving DecidableEq

/-- Which terminal message path `get_all_transactions` takes:
`initialFetchFailed` is the credentials hint printed when
`not first_page`; `unexpectedFormat` the message when `total` is missing;
`stoppedAt page` the mid-run stop message naming the failed page;
`completed` the normal loop exit; `illTyped` flags runs in which the
Python code would raise an uncaught TypeError (a `total` or `rows` field
holding a value of the wrong type), which the claims never exercise. -/
inductive Signal where
  | initialFetchFailed
  | unexpectedFormat
  | stoppedAt (page : Nat)
  | completed
  | illTyped
deriving DecidableEq

/-- Result of one `get_all_transactions` run: the returned transaction
list (`none` only for `illTyped` runs), the signal, the pages for which
`get_card_transactions` was invoked in call order, and the concatenated
sleep trace of all those calls. -/
structure RunRes (Rec : Type) where
  result : Option (List Rec)
  signal : Signal
  pagesFetched : List Nat
  sleeps : List ℚ
deriving DecidableEq

/-- The `total` dict key. -/
def totalKey : String := "total"

/-- The `rows` dict key. -/
def rowsKey : String := "rows"

/-- Default of the `delay` parameter of `get_card_transactions`
(1.0 seconds in the Python signature). -/
def default_delay : ℚ := 1

/-- Default of the `max_retries` parameter of `get_card_transactions`
(3 in the Python signature). -/
def default_max_retries : Nat := 3

/-- `rows_per_page = 50` in `get_all_transactions`. -/
def rows_per_page : Int := 50

/-- The retry pause computed before another attempt:
`retry_delay = delay * (attempt + 2)`. -/
def backoff (delay : ℚ) (attempt : Nat) : ℚ := delay * ((attempt : ℚ) + 2)

/-- `total_pages = (total_records + rows_per_page - 1) // rows_per_page`;
Python `//` on ints is floor division, hence `Int.fdiv`. -/
def total_pages (total_records : Int) : Int :=
  (total_records + rows_per_page - 1).fdiv rows_per_page

/-- What `time.sleep(retry_delay)` followed by `continue` amounts to:
prepend the `backoff` pause to the rest of the loop and count the request
of the current attempt. -/
def retryCons (delay : ℚ) (attempt : Nat) (r : FetchRes Rec) : FetchRes Rec :=
  ⟨r.result, backoff delay attempt :: r.sleeps, r.requests + 1⟩

/-- The `for attempt in range(max_retries)` loop body of
`get_card_transactions`, iterating over the remaining attempt indices.
Per attempt: a raised RequestException, a non-200 status, or a 200-status
body that fails JSON parsing retries (with a `backoff` sleep) while
`attempt < max_retries - 1`; `response.raise_for_status()` (reached
only when the status is 200 or the attempt is the last one) raises for
4xx/5xx codes, which the surrounding handler turns into `None` on the
last attempt; otherwise the parsed body is returned. -/
def attemptLoopGo (env : Nat → Outcome Rec) (delay : ℚ) (max_retries : Nat) :
    List Nat → FetchRes Rec
  | [] => ⟨none, [], 0⟩
  | attempt :: rest =>
    match env attempt with
    | .exn =>
      if attempt + 1 < max_retries then
        retryCons delay attempt (attemptLoopGo env delay max_retries rest)
      else ⟨none, [], 1⟩
    | .resp status body =>
      if status ≠ 200 ∧ attempt + 1 < max_retries then
        retryCons delay attempt (attemptLoopGo env delay max_retries rest)
      else if 400 ≤ status ∧ status < 600 then
        if attempt + 1 < max_retries then
          retryCons delay attempt (attemptLoopGo env delay max_retries rest)
        else ⟨none, [], 1⟩
      else
        match body with
        | some page => ⟨some page, [], 1⟩
        | none =>
          if attempt + 1 < max_retries then
            retryCons delay attempt (attemptLoopGo env delay max_retries rest)
          else ⟨none, [], 1⟩

/-- `get_card_transactions`: pacing sleep of `delay` before any request
when `page > 1`, then the bounded attempt loop over
`range(max_retries)`. -/
def get_card_transactions (env : Nat → Outcome Rec) (page : Nat) (delay : ℚ)
    (max_retries : Nat) : FetchRes Rec :=
  let r := attemptLoopGo env delay max_retries (List.range max_retries)
  if 1 < page then ⟨r.result, delay :: r.sleeps, r.requests⟩ else r

/-- The `for page in range(2, total_pages + 1)` loop of
`get_all_transactions`, over the list of remaining page numbers.
A page whose fetch returns a truthy dict containing `rows` has its rows
appended; otherwise the loop stops and the accumulated list is returned.
A `rows` value that is not an array would make the Python
`all_transactions.extend` call raise; such runs are flagged `illTyped`. -/
def pageLoop (env : Nat → Nat → Outcome Rec) (delay : ℚ) :
    List Nat → List Rec → List Nat → List ℚ → RunRes Rec
  | [], acc, tr, sl => ⟨some acc, .completed, tr, sl⟩
  | page :: rest, acc, tr, sl =>
    let pr := get_card_transactions (env page) page delay default_max_retries
    match pr.result with
    | none => ⟨some acc, .stoppedAt page, tr ++ [page], sl ++ pr.sleeps⟩
    | some page_data =>
      if page_data.isEmpty then
        ⟨some acc, .stoppedAt page, tr ++ [page], sl ++ pr.sleeps⟩
      else
        match List.lookup rowsKey page_data with
        | none => ⟨some acc, .stoppedAt page, tr ++ [page], sl ++ pr.sleeps⟩
        | some (.arr xs) =>
          pageLoop env delay rest (acc ++ xs) (tr ++ [page]) (sl ++ pr.sleeps)
        | some _ => ⟨none, .illTyped, tr ++ [page], sl ++ pr.sleeps⟩

/-- `get_all_transactions`: fetch page 1 with the `get_card_transactions`
defaults (the Python call site passes neither `delay` nor `max_retries`),
handle falsy or `total`-less first pages, compute `total_pages`, seed the
accumulator with `first_page.get` of `rows` with default `[]`, and run the page loop over
pages `2 .. total_pages`. A first-page `total` or `rows` value of the
wrong runtime type would raise in Python (or, for `rows` with
`total_pages <= 1`, return a non-list); such runs are flagged
`illTyped`. -/
def get_all_transactions (env : Nat → Nat → Outcome Rec) (delay : ℚ) :
    RunRes Rec :=
  let first := get_card_transactions (env 1) 1 default_delay default_max_retries
  match first.result with
  | none => ⟨some [], .initialFetchFailed, [1], first.sleeps⟩
  | some first_page =>
    if first_page.isEmpty then
      ⟨some [], .initialFetchFailed, [1], first.sleeps⟩
    else
      match List.lookup totalKey first_page with
      | none => ⟨some [], .unexpectedFormat, [1], first.sleeps⟩
      | some (.num total_records) =>
        match List.lookup rowsKey first_page with
        | none =>
          pageLoop env delay
            (List.range' 2 ((total_pages total_records).toNat - 1))
            [] [1] first.sleeps
        | some (.arr rows1) =>
          pageLoop env delay
            (List.range' 2 ((total_pages total_records).toNat - 1))
            rows1 [1] first.sleeps
        | some _ => ⟨none, .illTyped, [1], first.sleeps⟩
      | some _ => ⟨none, .illTyped, [1], first.sleeps⟩

/-! Derived notions used to state the claims. -/

/-- The `get_card_transactions` call `get_all_transactions` makes for
page `p`: page 1 is fetched with the signature defaults for `delay` and
`max_retries` (the call site passes neither), later pages with the
caller-supplied `delay` and the default `max_retries`. -/
def fetchedPage (env : Nat → Nat → Outcome Rec) (delay : ℚ) (p : Nat) :
    FetchRes Rec :=
  get_card_transactions (env p) p (if p = 1 then default_delay else delay)
    default_max_retries

/-- The `total` field of a page, when present with an integer value. -/
def getTotal (pd : PageD Rec) : Option Int :=
  match List.lookup totalKey pd with
  | some (.num n) => some n
  | _ => none

/-- The `rows` field of a page, when present with an array value. -/
def getRowsArr (pd : PageD Rec) : Option (List Rec) :=
  match List.lookup rowsKey pd with
  | some (.arr xs) => some xs
  | _ => none

/-- `first_page.get` of `rows` with default `[]` restricted to list-valued results:
a missing key yields `[]`, an array yields its elements, and any other
value is rejected (`none`) because the run would not be list-typed. -/
def getRowsD (pd : PageD Rec) : Option (List Rec) :=
  match List.lookup rowsKey pd with
  | none => some []
  | some (.arr xs) => some xs
  | some _ => none

/-- The `total` recorded from the page-1 fetch of the run, when any. -/
def firstTotal (env : Nat → Nat → Outcome Rec) (delay : ℚ) : Option Int :=
  match (fetchedPage env delay 1).result with
  | some pd => getTotal pd
  | none => none

/-- Whether the run accepts page `p`, i.e. consumes its rows: the fetch
must return a parsed page that is truthy (a non-empty dict) and that
passes the schema check of the driver for that position (`total` present for
page 1, `rows` present for later pages). -/
def pageAccepted (env : Nat → Nat → Outcome Rec) (delay : ℚ) (p : Nat) :
    Bool :=
  match (fetchedPage env delay p).result with
  | none => false
  | some pd =>
    if p = 1 then !pd.isEmpty && (List.lookup totalKey pd).isSome
    else !pd.isEmpty && (List.lookup rowsKey pd).isSome

/-- The rows the run appends to its accumulator for page `p` (empty when
the page is not accepted or its rows are not an array). -/
def consumedRows (env : Nat → Nat → Outcome Rec) (delay : ℚ) (p : Nat) :
    List Rec :=
  match (fetchedPage env delay p).result with
  | none => []
  | some pd =>
    if p = 1 then (getRowsD pd).getD []
    else (getRowsArr pd).getD []

/-- A fully successful, list-typed fetch of page `p`: the page is
accepted and its fields have the runtime types the Python code needs
(`total` an integer and `rows` absent-or-array for page 1, `rows` an
array for later pages). -/
def pageGood (env : Nat → Nat → Outcome Rec) (delay : ℚ) (p : Nat) : Bool :=
  match (fetchedPage env delay p).result with
  | none => false
  | some pd =>
    if p = 1 then
      !pd.isEmpty && (getTotal pd).isSome && (getRowsD pd).isSome
    else !pd.isEmpty && (getRowsArr pd).isSome

/-- The attempt outcomes the fetcher loop treats as retryable: a raised
RequestException, a status other than 200, or a body that fails JSON
parsing. -/
def retryableOutcome : Outcome Rec → Bool
  | .exn => true
  | .resp status body => decide (status ≠ 200) || body.isNone

/-! Concrete oracles used by witnesses and counterexamples. -/
/-- An oracle under which every request raises a RequestException. -/
def envAllExn : Nat → Nat → Outcome Nat := fun _ _ => .exn

/-- A single-page oracle under which every request raises. -/
def envExnPage : Nat → Outcome Nat := fun _ => .exn

/-- Every request yields HTTP 200 with the body `{}` (an empty JSON
object, which is falsy in Python). -/
def envEmptyPage : Nat → Nat → Outcome Nat := fun _ _ => .resp 200 (some [])

/-- Every request yields HTTP 200 with body `{"total": 0}`. -/
def envTotalZero : Nat → Nat → Outcome Nat :=
  fun _ _ => .resp 200 (some [(totalKey, Jval.num 0)])

/-- Every request yields HTTP 200 with a truthy body that has `rows`
but no `total`. -/
def envRowsOnly : Nat → Nat → Outcome Nat :=
  fun _ _ => .resp 200 (some [(rowsKey, Jval.arr [5])])

/-- Every page fetch succeeds with `total = 120` (three pages of 50)
and one row tagged with the page number. -/
def envScenarioA : Nat → Nat → Outcome Nat :=
  fun p _ => .resp 200 (some [(totalKey, Jval.num 120), (rowsKey, Jval.arr [p])])

/-- Like `envScenarioA` except every request for page 2 returns
HTTP 500 with an unparseable body. -/
def envScenarioB : Nat → Nat → Outcome Nat :=
  fun p _ =>
    if p = 2 then .resp 500 none
    else .resp 200 (some [(totalKey, Jval.num 120), (rowsKey, Jval.arr [p])])

/-- A single-page oracle: the first attempt returns HTTP 201 with a
well-formed body, later attempts return HTTP 500. -/
def envStatus201 : Nat → Outcome Nat := fun i =>
  if i = 0 then .resp 201 (some [(totalKey, Jval.num 5)]) else .resp 500 none

/-- A single-page oracle: every attempt returns HTTP 200 with a
well-formed body. -/
def envOk200 : Nat → Outcome Nat :=
  fun _ => .resp 200 (some [(totalKey, Jval.num 7)])


/-! Lemmas about the fetcher attempt loop. -/

variable {Rec : Type}

lemma attemptLoopGo_requests_le (env : Nat → Outcome Rec) (d : ℚ) (mr : Nat) :
    ∀ l : List Nat, (attemptLoopGo env d mr l).requests ≤ l.length := by
  intro l
  induction l with
  | nil => simp [attemptLoopGo]
  | cons a rest ih =>
    rcases h : env a with _ | ⟨s, _ | p⟩ <;>
        simp only [attemptLoopGo, h, List.length_cons] <;>
      split
    · simp only [retryCons]; omega
    · simp
    · simp only [retryCons]; omega
    · split
      · split
        · simp only [retryCons]; omega
        · simp
      · split
        · simp only [retryCons]; omega
        · simp
    · simp only [retryCons]; omega
    · split
      · split
        · simp only [retryCons]; omega
        · simp
      · simp

lemma attemptLoopGo_requests_pos (env : Nat → Outcome Rec) (d : ℚ) (mr : Nat)
    (a : Nat) (rest : List Nat) :
    1 ≤ (attemptLoopGo env d mr (a :: rest)).requests := by
  rcases h : env a with _ | ⟨s, _ | p⟩ <;> simp only [attemptLoopGo, h]
  · split <;> simp [retryCons]
  · split
    · simp [retryCons]
    · split
      · split <;> simp [retryCons]
      · split <;> simp [retryCons]
  · split
    · simp [retryCons]
    · split
      · split <;> simp [retryCons]
      · simp

lemma retryCons_sleeps_step (R : FetchRes Rec) (d : ℚ) (i : Nat)
    (h1 : 1 ≤ R.requests)
    (hs : R.sleeps = (List.range' (i + 1) (R.requests - 1)).map (backoff d)) :
    (retryCons d i R).sleeps =
      (List.range' i ((retryCons d i R).requests - 1)).map (backoff d) := by
  obtain ⟨k, hk⟩ : ∃ k, R.requests = k + 1 := ⟨R.requests - 1, by omega⟩
  rw [hk] at hs
  simp only [retryCons, hk, Nat.add_sub_cancel, List.range'_succ, List.map_cons]
  exact congrArg (backoff d i :: ·) hs

lemma attemptLoopGo_sleeps (env : Nat → Outcome Rec) (d : ℚ) (mr : Nat) :
    ∀ (n i : Nat), i + n = mr →
      (attemptLoopGo env d mr (List.range' i n)).sleeps =
        (List.range' i
          ((attemptLoopGo env d mr (List.range' i n)).requests - 1)).map
          (backoff d) := by
  intro n
  induction n with
  | zero => intro i _; simp [attemptLoopGo]
  | succ n ih =>
    intro i hi
    have hrec : i + 1 < mr →
        (retryCons d i (attemptLoopGo env d mr (List.range' (i + 1) n))).sleeps =
          (List.range' i
            ((retryCons d i
              (attemptLoopGo env d mr (List.range' (i + 1) n))).requests - 1)).map
            (backoff d) := by
      intro h
      obtain ⟨m, hm⟩ : ∃ m, n = m + 1 := ⟨n - 1, by omega⟩
      refine retryCons_sleeps_step _ d i ?_ (ih (i + 1) (by omega))
      rw [hm, List.range'_succ]
      exact attemptLoopGo_requests_pos ..
    rw [List.range'_succ]
    rcases h : env i with _ | ⟨s, _ | p⟩ <;> simp only [attemptLoopGo, h]
    · split
      · exact hrec (by assumption)
      · simp
    · split
      · rename_i hc
        exact hrec hc.2
      · split
        · split
          · exact hrec (by assumption)
          · simp
        · split
          · exact hrec (by assumption)
          · simp
    · split
      · rename_i hc
        exact hrec hc.2
      · split
        · split
          · exact hrec (by assumption)
          · simp
        · simp

/-! Lemmas and claim theorems. -/

lemma range'_take_eq : ∀ (n s k : Nat),
    (List.range' s n).take k = List.range' s (min k n) := by
  intro n
  induction n with
  | zero => intro s k; simp
  | succ n ih =>
    intro s k
    cases k with
    | zero => simp
    | succ k =>
      rw [List.range'_succ, List.take_succ_cons, ih (s + 1) k,
        Nat.succ_min_succ, List.range'_succ]

lemma fetchedPage_one (env : Nat → Nat → Outcome Rec) (d : ℚ) :
    fetchedPage env d 1 =
      get_card_transactions (env 1) 1 default_delay default_max_retries := by
  simp [fetchedPage]

lemma fetchedPage_ne_one (env : Nat → Nat → Outcome Rec) (d : ℚ) (p : Nat)
    (h : p ≠ 1) :
    fetchedPage env d p =
      get_card_transactions (env p) p d default_max_retries := by
  simp [fetchedPage, h]

lemma pageLoop_trace (env : Nat → Nat → Outcome Rec) (d : ℚ) :
    ∀ (pages : List Nat) (acc : List Rec) (tr : List Nat) (sl : List ℚ),
      ∃ n, n ≤ pages.length ∧
        (pageLoop env d pages acc tr sl).pagesFetched = tr ++ pages.take n ∧
        (pageLoop env d pages acc tr sl).sleeps =
          sl ++ ((pages.take n).map
            (fun p =>
              (get_card_transactions (env p) p d default_max_retries).sleeps)).flatten := by
  intro pages
  induction pages with
  | nil => intro acc tr sl; exact ⟨0, by simp, by simp [pageLoop], by simp [pageLoop]⟩
  | cons page rest ih =>
    intro acc tr sl
    rcases hres : (get_card_transactions (env page) page d default_max_retries).result
      with _ | pd
    · exact ⟨1, by simp, by simp [pageLoop, hres], by simp [pageLoop, hres]⟩
    · rcases hemp : pd.isEmpty with _ | _
      · rcases hlk : List.lookup rowsKey pd with _ | (n | xs | _)
        · exact ⟨1, by simp, by simp [pageLoop, hres, hemp, hlk],
            by simp [pageLoop, hres, hemp, hlk]⟩
        · exact ⟨1, by simp, by simp [pageLoop, hres, hemp, hlk],
            by simp [pageLoop, hres, hemp, hlk]⟩
        · obtain ⟨n, hn, hp, hs⟩ := ih (acc ++ xs) (tr ++ [page])
            (sl ++ (get_card_transactions (env page) page d default_max_retries).sleeps)
          refine ⟨n + 1, by simp; omega, ?_, ?_⟩
          · simp only [pageLoop, hres, hemp, hlk, Bool.false_eq_true, if_false]
            rw [hp]
            simp
          · simp only [pageLoop, hres, hemp, hlk, Bool.false_eq_true, if_false]
            rw [hs]
            simp
        · exact ⟨1, by simp, by simp [pageLoop, hres, hemp, hlk],
            by simp [pageLoop, hres, hemp, hlk]⟩
      · exact ⟨1, by simp, by simp [pageLoop, hres, hemp],
          by simp [pageLoop, hres, hemp]⟩

lemma getRowsArr_eq_some_iff (pd : PageD Rec) (xs : List Rec) :
    getRowsArr pd = some xs ↔ List.lookup rowsKey pd = some (.arr xs) := by
  unfold getRowsArr
  rcases h : List.lookup rowsKey pd with _ | (n | ys | _) <;> simp [h]

lemma pageLoop_result (env : Nat → Nat → Outcome Rec) (d : ℚ) :
    ∀ (pages : List Nat) (acc : List Rec) (tr : List Nat) (sl : List ℚ)
      (l : List Rec), (∀ p ∈ pages, p ≠ 1) →
      (pageLoop env d pages acc tr sl).result = some l →
      ∃ n, n ≤ pages.length ∧
        (pageLoop env d pages acc tr sl).pagesFetched = tr ++ pages.take n ∧
        l = acc ++ (((pages.take n).filter
          (fun p => pageAccepted env d p)).map (consumedRows env d)).flatten := by
  intro pages
  induction pages with
  | nil =>
    intro acc tr sl l _ hl
    simp only [pageLoop] at hl
    refine ⟨0, by simp, by simp [pageLoop], ?_⟩
    simp at hl
    simp [← hl]
  | cons page rest ih =>
    intro acc tr sl l hne hl
    have hne1 : page ≠ 1 := hne page (by simp)
    have hnerest : ∀ p ∈ rest, p ≠ 1 := fun p hp => hne p (by simp [hp])
    rcases hres : (get_card_transactions (env page) page d default_max_retries).result
      with _ | pd
    · have hacc : pageAccepted env d page = false := by
        simp [pageAccepted, fetchedPage_ne_one env d page hne1, hres]
      simp only [pageLoop, hres] at hl
      simp at hl
      refine ⟨1, by simp, by simp [pageLoop, hres], ?_⟩
      simp [hacc, ← hl]
    · rcases hemp : pd.isEmpty with _ | _
      · rcases hlk : List.lookup rowsKey pd with _ | (n | xs | _)
        · have hacc : pageAccepted env d page = false := by
            simp [pageAccepted, fetchedPage_ne_one env d page hne1, hres, hne1,
              hemp, hlk]
          simp only [pageLoop, hres, hemp, Bool.false_eq_true, if_false, hlk] at hl
          simp at hl
          refine ⟨1, by simp, by simp [pageLoop, hres, hemp, hlk], ?_⟩
          simp [hacc, ← hl]
        · simp only [pageLoop, hres, hemp, Bool.false_eq_true, if_false, hlk] at hl
          simp at hl
        · have hacc : pageAccepted env d page = true := by
            simp [pageAccepted, fetchedPage_ne_one env d page hne1, hres, hne1,
              hemp, hlk]
          have hcons : consumedRows env d page = xs := by
            simp [consumedRows, fetchedPage_ne_one env d page hne1, hres, hne1,
              getRowsArr, hlk]
          simp only [pageLoop, hres, hemp, Bool.false_eq_true, if_false, hlk] at hl
          obtain ⟨n, hn, hp, hl2⟩ := ih (acc ++ xs) (tr ++ [page])
            (sl ++ (get_card_transactions (env page) page d default_max_retries).sleeps)
            l hnerest hl
          refine ⟨n + 1, by simp; omega, ?_, ?_⟩
          · simp only [pageLoop, hres, hemp, Bool.false_eq_true, if_false, hlk]
            rw [hp]
            simp
          · rw [hl2]
            simp [hacc, hcons, List.append_assoc]
        · simp only [pageLoop, hres, hemp, Bool.false_eq_true, if_false, hlk] at hl
          simp at hl
      · have hacc : pageAccepted env d page = false := by
          simp [pageAccepted, fetchedPage_ne_one env d page hne1, hres, hne1, hemp]
        simp only [pageLoop, hres, hemp, if_true] at hl
        simp at hl
        refine ⟨1, by simp, by simp [pageLoop, hres, hemp], ?_⟩
        simp [hacc, ← hl]

lemma pageGood_ne_one_elim (env : Nat → Nat → Outcome Rec) (d : ℚ) (p : Nat)
    (h1 : p ≠ 1) (hg : pageGood env d p = true) :
    ∃ pd xs,
      (get_card_transactions (env p) p d default_max_retries).result = some pd ∧
      pd.isEmpty = false ∧ List.lookup rowsKey pd = some (.arr xs) ∧
      consumedRows env d p = xs ∧ pageAccepted env d p = true := by
  rw [pageGood, fetchedPage_ne_one env d p h1] at hg
  rcases hres : (get_card_transactions (env p) p d default_max_retries).result
    with _ | pd
  · rw [hres] at hg; simp at hg
  · rw [hres] at hg
    simp only [h1, if_false, Bool.and_eq_true, Bool.not_eq_eq_eq_not,
      Bool.not_true, Option.isSome_iff_exists] at hg
    obtain ⟨hemp, xs, hxs⟩ := hg
    rw [getRowsArr_eq_some_iff] at hxs
    refine ⟨pd, xs, rfl, hemp, hxs, ?_, ?_⟩
    · simp [consumedRows, fetchedPage_ne_one env d p h1, hres, h1, getRowsArr, hxs]
    · simp [pageAccepted, fetchedPage_ne_one env d p h1, hres, h1, hemp, hxs]

lemma pageLoop_complete (env : Nat → Nat → Outcome Rec) (d : ℚ) :
    ∀ (pages : List Nat) (acc : List Rec) (tr : List Nat) (sl : List ℚ),
      (∀ p ∈ pages, p ≠ 1 ∧ pageGood env d p = true) →
      pageLoop env d pages acc tr sl =
        ⟨some (acc ++ (pages.map (consumedRows env d)).flatten), .completed,
          tr ++ pages,
          sl ++ ((pages.map
            (fun p =>
              (get_card_transactions (env p) p d default_max_retries).sleeps)).flatten)⟩ := by
  intro pages
  induction pages with
  | nil => intro acc tr sl _; simp [pageLoop]
  | cons page rest ih =>
    intro acc tr sl hall
    have hne1 : page ≠ 1 := (hall page (by simp)).1
    obtain ⟨pd, xs, hres, hemp, hlk, hcons, hacc⟩ :=
      pageGood_ne_one_elim env d page hne1 (hall page (by simp)).2
    simp only [pageLoop, hres, hemp, Bool.false_eq_true, if_false, hlk]
    rw [ih (acc ++ xs) (tr ++ [page])
      (sl ++ (get_card_transactions (env page) page d default_max_retries).sleeps)
      (fun p hp => hall p (by simp [hp]))]
    simp [hcons, List.append_assoc]

lemma pageLoop_stop (env : Nat → Nat → Outcome Rec) (d : ℚ) :
    ∀ (pages1 : List Nat) (k : Nat) (rest : List Nat) (acc : List Rec)
      (tr : List Nat) (sl : List ℚ),
      (∀ p ∈ pages1, p ≠ 1 ∧ pageGood env d p = true) → k ≠ 1 →
      pageAccepted env d k = false →
      pageLoop env d (pages1 ++ k :: rest) acc tr sl =
        ⟨some (acc ++ (pages1.map (consumedRows env d)).flatten), .stoppedAt k,
          tr ++ pages1 ++ [k],
          sl ++ (((pages1 ++ [k]).map
            (fun p =>
              (get_card_transactions (env p) p d default_max_retries).sleeps)).flatten)⟩ := by
  intro pages1
  induction pages1 with
  | nil =>
    intro k rest acc tr sl _ hk1 hacc
    rw [pageAccepted, fetchedPage_ne_one env d k hk1] at hacc
    rcases hres : (get_card_transactions (env k) k d default_max_retries).result
      with _ | pd
    · simp only [List.nil_append, pageLoop, hres]
      simp
    · rw [hres] at hacc
      simp only [hk1, if_false] at hacc
      rcases Bool.eq_false_or_eq_true pd.isEmpty with hemp | hemp
      · simp only [List.nil_append, pageLoop, hres, hemp, if_true]
        simp
      · rw [hemp] at hacc
        simp only [Bool.not_false, Bool.true_and] at hacc
        have hlk : List.lookup rowsKey pd = none := by
          rcases h : List.lookup rowsKey pd with _ | v
          · rfl
          · rw [h] at hacc; simp at hacc
        simp only [List.nil_append, pageLoop, hres, hemp, Bool.false_eq_true,
          if_false, hlk]
        simp
  | cons page qs ih =>
    intro k rest acc tr sl hall hk1 hacc
    have hne1 : page ≠ 1 := (hall page (by simp)).1
    obtain ⟨pd, xs, hres, hemp, hlk, hcons, _⟩ :=
      pageGood_ne_one_elim env d page hne1 (hall page (by simp)).2
    simp only [List.cons_append, pageLoop, hres, hemp, Bool.false_eq_true,
      if_false, hlk, List.append_eq]
    rw [ih k rest (acc ++ xs) (tr ++ [page])
      (sl ++ (get_card_transactions (env page) page d default_max_retries).sleeps)
      (fun p hp => hall p (by simp [hp])) hk1 hacc]
    simp [hcons, List.append_assoc]

lemma get_all_transactions_of_fail (env : Nat → Nat → Outcome Rec) (d : ℚ)
    (h1 : (get_card_transactions (env 1) 1 default_delay
      default_max_retries).result = none) :
    get_all_transactions env d =
      ⟨some [], .initialFetchFailed, [1],
        (get_card_transactions (env 1) 1 default_delay
          default_max_retries).sleeps⟩ := by
  simp [get_all_transactions, h1]

lemma get_all_transactions_of_falsy (env : Nat → Nat → Outcome Rec) (d : ℚ)
    (p1 : PageD Rec)
    (h1 : (get_card_transactions (env 1) 1 default_delay
      default_max_retries).result = some p1)
    (hemp : p1.isEmpty = true) :
    get_all_transactions env d =
      ⟨some [], .initialFetchFailed, [1],
        (get_card_transactions (env 1) 1 default_delay
          default_max_retries).sleeps⟩ := by
  simp [get_all_transactions, h1, hemp]

lemma get_all_transactions_of_noTotal (env : Nat → Nat → Outcome Rec) (d : ℚ)
    (p1 : PageD Rec)
    (h1 : (get_card_transactions (env 1) 1 default_delay
      default_max_retries).result = some p1)
    (hemp : p1.isEmpty = false)
    (ht : List.lookup totalKey p1 = none) :
    get_all_transactions env d =
      ⟨some [], .unexpectedFormat, [1],
        (get_card_transactions (env 1) 1 default_delay
          default_max_retries).sleeps⟩ := by
  simp [get_all_transactions, h1, hemp, ht]

lemma get_all_transactions_loop (env : Nat → Nat → Outcome Rec) (d : ℚ)
    (p1 : PageD Rec) (t : Int) (rows1 : List Rec)
    (h1 : (get_card_transactions (env 1) 1 default_delay
      default_max_retries).result = some p1)
    (hemp : p1.isEmpty = false)
    (ht : List.lookup totalKey p1 = some (.num t))
    (hr : getRowsD p1 = some rows1) :
    get_all_transactions env d =
      pageLoop env d (List.range' 2 ((total_pages t).toNat - 1)) rows1 [1]
        (get_card_transactions (env 1) 1 default_delay
          default_max_retries).sleeps := by
  rcases hlk : List.lookup rowsKey p1 with _ | (n | xs | _) <;>
    rw [getRowsD, hlk] at hr
  · simp at hr
    simp [get_all_transactions, h1, hemp, ht, hlk, ← hr]
  · simp at hr
  · simp at hr
    simp [get_all_transactions, h1, hemp, ht, hlk, ← hr]
  · simp at hr

lemma total_pages_eq_ceil (t : Int) :
    total_pages t = ⌈(t : ℚ) / 50⌉ := by
  rw [total_pages, rows_per_page, Int.fdiv_eq_ediv _ (by norm_num)]
  symm
  rw [Int.ceil_eq_iff]
  constructor
  · rw [lt_div_iff₀ (by norm_num : (0 : ℚ) < 50)]
    have hz : ((t + 50 - 1) / 50 - 1) * 50 < t := by omega
    exact_mod_cast hz
  · rw [div_le_iff₀ (by norm_num : (0 : ℚ) < 50)]
    have hz : t ≤ ((t + 50 - 1) / 50) * 50 := by omega
    exact_mod_cast hz

/-- C6: the sleep trace of one fetcher call is exactly the pacing pause
of `delay` seconds when `page > 1` (page 1 has no pre-request pause)
followed by one backoff pause of `delay * (i + 2)` for every retried
attempt `i` (0-indexed), one per request after the first. -/
theorem C6_backoff_schedule (env : Nat → Outcome Rec) (page : Nat) (delay : ℚ)
    (max_retries : Nat) :
    (get_card_transactions env page delay max_retries).sleeps =
      (if 1 < page then [delay] else []) ++
        (List.range
          ((get_card_transactions env page delay max_retries).requests - 1)).map
          (backoff delay) := by
  have h := attemptLoopGo_sleeps env delay max_retries max_retries 0 (by omega)
  rw [← List.range_eq_range'] at h
  rcases Nat.lt_or_ge 1 page with hp | hp
  · simp only [get_card_transactions, if_pos hp]
    rw [h]
    simp [List.range_eq_range']
  · have hp2 : ¬ 1 < page := by omega
    simp only [get_card_transactions, if_neg hp2]
    rw [h]
    simp [List.range_eq_range']

/-- C8: a fetcher call with `max_retries >= 1` issues at most
`max_retries` requests (the loop is bounded), and always returns either
a parsed page or the failure value `none` — no other outcome exists. -/
theorem C8_bounded_requests (env : Nat → Outcome Rec) (page : Nat) (delay : ℚ)
    (max_retries : Nat) (h : 1 ≤ max_retries) :
    (get_card_transactions env page delay max_retries).requests ≤ max_retries ∧
    ((∃ p, (get_card_transactions env page delay max_retries).result = some p) ∨
      (get_card_transactions env page delay max_retries).result = none) := by
  constructor
  · have hle := attemptLoopGo_requests_le env delay max_retries
      (List.range max_retries)
    rw [List.length_range] at hle
    rcases Nat.lt_or_ge 1 page with hp | hp
    · simpa [get_card_transactions, if_pos hp] using hle
    · have hp2 : ¬ 1 < page := by omega
      simpa [get_card_transactions, if_neg hp2] using hle
  · rcases hr : (get_card_transactions env page delay max_retries).result
      with _ | p
    · exact Or.inr rfl
    · exact Or.inl ⟨p, rfl⟩

/-- C7 (amended): per attempt, status exactly 200 with a well-formed
body is a success returning the parsed page from that attempt without
further retries, and — when further attempts remain — a raised transport
exception, a status other than 200, or a 200-status body that fails JSON
parsing is a retryable failure: the loop sleeps the backoff pause and
proceeds to the next attempt. (The code compares the status with 200,
not with the 2xx class, which is what the counterexample exploits.) -/
theorem C7_amended_classification (env : Nat → Outcome Rec) (delay : ℚ)
    (max_retries : Nat) (attempt : Nat) (rest : List Nat) :
    (∀ p, env attempt = .resp 200 (some p) →
      attemptLoopGo env delay max_retries (attempt :: rest) =
        ⟨some p, [], 1⟩) ∧
    (attempt + 1 < max_retries → retryableOutcome (env attempt) = true →
      attemptLoopGo env delay max_retries (attempt :: rest) =
        retryCons delay attempt (attemptLoopGo env delay max_retries rest)) := by
  constructor
  · intro p hp
    simp [attemptLoopGo, hp]
  · intro hlt hretry
    rcases h : env attempt with _ | ⟨s, _ | p⟩ <;> simp only [attemptLoopGo, h]
    · simp [hlt]
    · by_cases hs : s = 200
      · subst hs
        simp [hlt]
      · simp [hs, hlt]
    · rw [h] at hretry
      simp only [retryableOutcome, Option.isNone_some, Bool.or_false,
        decide_eq_true_eq] at hretry
      simp [hretry, hlt]

lemma getTotal_eq_some_iff (pd : PageD Rec) (t : Int) :
    getTotal pd = some t ↔ List.lookup totalKey pd = some (.num t) := by
  unfold getTotal
  rcases h : List.lookup totalKey pd with _ | (n | ys | _) <;> simp [h]

lemma pageGood_one_elim (env : Nat → Nat → Outcome Rec) (d : ℚ)
    (hg : pageGood env d 1 = true) :
    ∃ p1 t rows1,
      (get_card_transactions (env 1) 1 default_delay
        default_max_retries).result = some p1 ∧
      p1.isEmpty = false ∧ List.lookup totalKey p1 = some (.num t) ∧
      getRowsD p1 = some rows1 ∧ firstTotal env d = some t ∧
      consumedRows env d 1 = rows1 ∧ pageAccepted env d 1 = true := by
  rw [pageGood, fetchedPage_one] at hg
  rcases hres : (get_card_transactions (env 1) 1 default_delay
      default_max_retries).result with _ | p1
  · rw [hres] at hg; simp at hg
  · simp only [hres] at hg
    rw [if_pos trivial] at hg
    obtain ⟨h12, h3⟩ := Bool.and_eq_true_iff.1 hg
    obtain ⟨h1b, h2⟩ := Bool.and_eq_true_iff.1 h12
    have hemp : p1.isEmpty = false := by
      revert h1b
      cases p1.isEmpty <;> simp
    obtain ⟨t, hts⟩ := Option.isSome_iff_exists.1 h2
    obtain ⟨rows1, hrs⟩ := Option.isSome_iff_exists.1 h3
    rw [getTotal_eq_some_iff] at hts
    refine ⟨p1, t, rows1, rfl, hemp, hts, hrs, ?_, ?_, ?_⟩
    · rw [firstTotal, fetchedPage_one, hres, getTotal_eq_some_iff]
      exact hts
    · rw [consumedRows, fetchedPage_one, hres]
      simp [hrs]
    · rw [pageAccepted, fetchedPage_one, hres]
      simp [hemp, hts]

/-- C4: when the page-1 fetch returns `None` (its attempt budget
exhausted), `get_all_transactions` returns the empty list, prints the
credentials hint, and invokes the fetcher for no page other than
page 1. -/
theorem C4_first_page_failure (env : Nat → Nat → Outcome Rec) (d : ℚ)
    (h : (fetchedPage env d 1).result = none) :
    (get_all_transactions env d).result = some [] ∧
    (get_all_transactions env d).signal = .initialFetchFailed ∧
    (get_all_transactions env d).pagesFetched = [1] := by
  rw [fetchedPage_one] at h
  rw [get_all_transactions_of_fail env d h]
  exact ⟨rfl, rfl, rfl⟩

/-- C5 (amended): when the page-1 fetch succeeds with a truthy
(non-empty) page that lacks the `total` field, `get_all_transactions`
returns the empty list, prints the unexpected-response-format message,
and invokes the fetcher for no page other than page 1. -/
theorem C5_amended_no_total (env : Nat → Nat → Outcome Rec) (d : ℚ)
    (p1 : PageD Rec)
    (h1 : (fetchedPage env d 1).result = some p1)
    (hemp : p1.isEmpty = false)
    (ht : List.lookup totalKey p1 = none) :
    (get_all_transactions env d).result = some [] ∧
    (get_all_transactions env d).signal = .unexpectedFormat ∧
    (get_all_transactions env d).pagesFetched = [1] := by
  rw [fetchedPage_one] at h1
  rw [get_all_transactions_of_noTotal env d p1 h1 hemp ht]
  exact ⟨rfl, rfl, rfl⟩

lemma ne_one_of_mem_range'_two {m p : Nat} (hp : p ∈ List.range' 2 m) :
    p ≠ 1 := by
  rw [List.mem_range'_1] at hp
  omega

lemma pageAccepted_one_false_of_fail (env : Nat → Nat → Outcome Rec) (d : ℚ)
    (h : (get_card_transactions (env 1) 1 default_delay
      default_max_retries).result = none) :
    pageAccepted env d 1 = false := by
  rw [pageAccepted, fetchedPage_one, h]

lemma pageAccepted_one_false_of_falsy (env : Nat → Nat → Outcome Rec) (d : ℚ)
    (p1 : PageD Rec)
    (h : (get_card_transactions (env 1) 1 default_delay
      default_max_retries).result = some p1)
    (hemp : p1.isEmpty = true) :
    pageAccepted env d 1 = false := by
  rw [pageAccepted, fetchedPage_one, h]
  simp [hemp]

lemma pageAccepted_one_false_of_noTotal (env : Nat → Nat → Outcome Rec)
    (d : ℚ) (p1 : PageD Rec)
    (h : (get_card_transactions (env 1) 1 default_delay
      default_max_retries).result = some p1)
    (ht : List.lookup totalKey p1 = none) :
    pageAccepted env d 1 = false := by
  rw [pageAccepted, fetchedPage_one, h]
  simp [ht]

lemma pageAccepted_one_true (env : Nat → Nat → Outcome Rec) (d : ℚ)
    (p1 : PageD Rec) (v : Jval Rec)
    (h : (get_card_transactions (env 1) 1 default_delay
      default_max_retries).result = some p1)
    (hemp : p1.isEmpty = false)
    (ht : List.lookup totalKey p1 = some v) :
    pageAccepted env d 1 = true := by
  rw [pageAccepted, fetchedPage_one, h]
  simp [hemp, ht]

lemma consumedRows_one (env : Nat → Nat → Outcome Rec) (d : ℚ)
    (p1 : PageD Rec) (rows1 : List Rec)
    (h : (get_card_transactions (env 1) 1 default_delay
      default_max_retries).result = some p1)
    (hr : getRowsD p1 = some rows1) :
    consumedRows env d 1 = rows1 := by
  rw [consumedRows, fetchedPage_one, h]
  simp [hr]

/-- C1: in every run, the fetcher is invoked for pages `1, 2, 3, ...` in
that strict order with no page skipped, repeated, or reordered, and the
returned list is the concatenation, in page order, of the rows the run
accepted (the pages whose fetch succeeded and passed the driver
truthiness and schema check for their position), so its length is the
sum of the row counts of those pages. -/
theorem C1_ordered_concatenation (env : Nat → Nat → Outcome Rec) (d : ℚ) :
    (get_all_transactions env d).pagesFetched =
      List.range' 1 (get_all_transactions env d).pagesFetched.length ∧
    ∀ l, (get_all_transactions env d).result = some l →
      l = (((get_all_transactions env d).pagesFetched.filter
          (fun p => pageAccepted env d p)).map (consumedRows env d)).flatten ∧
      l.length = (((get_all_transactions env d).pagesFetched.filter
          (fun p => pageAccepted env d p)).map
          (fun p => (consumedRows env d p).length)).sum := by
  rcases hres : (get_card_transactions (env 1) 1 default_delay
      default_max_retries).result with _ | p1
  · rw [get_all_transactions_of_fail env d hres]
    refine ⟨rfl, ?_⟩
    intro l hl
    simp only [Option.some.injEq] at hl
    subst hl
    simp [pageAccepted_one_false_of_fail env d hres]
  · rcases Bool.eq_false_or_eq_true p1.isEmpty with hemp | hemp
    · rw [get_all_transactions_of_falsy env d p1 hres hemp]
      refine ⟨rfl, ?_⟩
      intro l hl
      simp only [Option.some.injEq] at hl
      subst hl
      simp [pageAccepted_one_false_of_falsy env d p1 hres hemp]
    · rcases hlt : List.lookup totalKey p1 with _ | (t | ys | _)
      · rw [get_all_transactions_of_noTotal env d p1 hres hemp hlt]
        refine ⟨rfl, ?_⟩
        intro l hl
        simp only [Option.some.injEq] at hl
        subst hl
        simp [pageAccepted_one_false_of_noTotal env d p1 hres hlt]
      · -- total is an integer: the run proceeds to the page loop
        rcases hlr : List.lookup rowsKey p1 with _ | (n | rows1 | _)
        · have hrD : getRowsD p1 = some [] := by rw [getRowsD, hlr]
          rw [get_all_transactions_loop env d p1 t [] hres hemp hlt hrD]
          constructor
          · obtain ⟨n, hn, hp, _⟩ := pageLoop_trace env d
              (List.range' 2 ((total_pages t).toNat - 1)) [] [1]
              (get_card_transactions (env 1) 1 default_delay
                default_max_retries).sleeps
            rw [hp, range'_take_eq]
            simp [List.range'_succ, List.length_range']
          · intro l hl
            obtain ⟨n, hn, hp, hleq⟩ := pageLoop_result env d
              (List.range' 2 ((total_pages t).toNat - 1)) [] [1]
              (get_card_transactions (env 1) 1 default_delay
                default_max_retries).sleeps l
              (fun p hp => ne_one_of_mem_range'_two hp) hl
            have hacc1 := pageAccepted_one_true env d p1 _ hres hemp hlt
            have hcons1 := consumedRows_one env d p1 [] hres hrD
            rw [hp, hleq]
            constructor
            · simp [hacc1, hcons1]
            · simp [hacc1, hcons1, List.length_flatten, List.map_map,
                Function.comp_def]
        · -- rows bound to a non-array value: the run is ill-typed
          have hrun : get_all_transactions env d =
              ⟨none, .illTyped, [1],
                (get_card_transactions (env 1) 1 default_delay
                  default_max_retries).sleeps⟩ := by
            simp [get_all_transactions, hres, hemp, hlt, hlr]
          rw [hrun]
          exact ⟨rfl, fun l hl => by simp at hl⟩
        · have hrD : getRowsD p1 = some rows1 := by rw [getRowsD, hlr]
          rw [get_all_transactions_loop env d p1 t rows1 hres hemp hlt hrD]
          constructor
          · obtain ⟨n, hn, hp, _⟩ := pageLoop_trace env d
              (List.range' 2 ((total_pages t).toNat - 1)) rows1 [1]
              (get_card_transactions (env 1) 1 default_delay
                default_max_retries).sleeps
            rw [hp, range'_take_eq]
            simp [List.range'_succ, List.length_range']
          · intro l hl
            obtain ⟨n, hn, hp, hleq⟩ := pageLoop_result env d
              (List.range' 2 ((total_pages t).toNat - 1)) rows1 [1]
              (get_card_transactions (env 1) 1 default_delay
                default_max_retries).sleeps l
              (fun p hp => ne_one_of_mem_range'_two hp) hl
            have hacc1 := pageAccepted_one_true env d p1 _ hres hemp hlt
            have hcons1 := consumedRows_one env d p1 rows1 hres hrD
            rw [hp, hleq]
            constructor
            · simp [hacc1, hcons1]
            · simp [hacc1, hcons1, List.length_flatten, List.map_map,
                Function.comp_def]
        · have hrun : get_all_transactions env d =
              ⟨none, .illTyped, [1],
                (get_card_transactions (env 1) 1 default_delay
                  default_max_retries).sleeps⟩ := by
            simp [get_all_transactions, hres, hemp, hlt, hlr]
          rw [hrun]
          exact ⟨rfl, fun l hl => by simp at hl⟩
      · have hrun : get_all_transactions env d =
            ⟨none, .illTyped, [1],
              (get_card_transactions (env 1) 1 default_delay
                default_max_retries).sleeps⟩ := by
          simp [get_all_transactions, hres, hemp, hlt]
        rw [hrun]
        exact ⟨rfl, fun l hl => by simp at hl⟩
      · have hrun : get_all_transactions env d =
            ⟨none, .illTyped, [1],
              (get_card_transactions (env 1) 1 default_delay
                default_max_retries).sleeps⟩ := by
          simp [get_all_transactions, hres, hemp, hlt]
        rw [hrun]
        exact ⟨rfl, fun l hl => by simp at hl⟩

/-- C9: the page-1 call of the driver passes neither `delay` nor
`max_retries`, so it runs with the signature defaults of the fetcher
(base delay 1.0, 3 attempts) whatever `delay` the caller supplied, while
the call for every later page uses the caller-supplied `delay` (and the default
3 attempts): the sleep trace of the run decomposes accordingly. -/
theorem C9_page_one_uses_defaults (env : Nat → Nat → Outcome Rec) (d : ℚ) :
    default_delay = 1 ∧ default_max_retries = 3 ∧
    (get_all_transactions env d).sleeps =
      (get_card_transactions (env 1) 1 default_delay
        default_max_retries).sleeps ++
        (((get_all_transactions env d).pagesFetched.drop 1).map
          (fun p =>
            (get_card_transactions (env p) p d
              default_max_retries).sleeps)).flatten := by
  refine ⟨rfl, rfl, ?_⟩
  rcases hres : (get_card_transactions (env 1) 1 default_delay
      default_max_retries).result with _ | p1
  · rw [get_all_transactions_of_fail env d hres]
    simp
  · rcases Bool.eq_false_or_eq_true p1.isEmpty with hemp | hemp
    · rw [get_all_transactions_of_falsy env d p1 hres hemp]
      simp
    · rcases hlt : List.lookup totalKey p1 with _ | (t | ys | _)
      · rw [get_all_transactions_of_noTotal env d p1 hres hemp hlt]
        simp
      · rcases hlr : List.lookup rowsKey p1 with _ | (n | rows1 | _)
        · have hrD : getRowsD p1 = some [] := by rw [getRowsD, hlr]
          rw [get_all_transactions_loop env d p1 t [] hres hemp hlt hrD]
          obtain ⟨n, hn, hp, hs⟩ := pageLoop_trace env d
            (List.range' 2 ((total_pages t).toNat - 1)) [] [1]
            (get_card_transactions (env 1) 1 default_delay
              default_max_retries).sleeps
          rw [hp, hs]
          simp
        · have hrun : get_all_transactions env d =
              ⟨none, .illTyped, [1],
                (get_card_transactions (env 1) 1 default_delay
                  default_max_retries).sleeps⟩ := by
            simp [get_all_transactions, hres, hemp, hlt, hlr]
          rw [hrun]
          simp
        · have hrD : getRowsD p1 = some rows1 := by rw [getRowsD, hlr]
          rw [get_all_transactions_loop env d p1 t rows1 hres hemp hlt hrD]
          obtain ⟨n, hn, hp, hs⟩ := pageLoop_trace env d
            (List.range' 2 ((total_pages t).toNat - 1)) rows1 [1]
            (get_card_transactions (env 1) 1 default_delay
              default_max_retries).sleeps
          rw [hp, hs]
          simp
        · have hrun : get_all_transactions env d =
              ⟨none, .illTyped, [1],
                (get_card_transactions (env 1) 1 default_delay
                  default_max_retries).sleeps⟩ := by
            simp [get_all_transactions, hres, hemp, hlt, hlr]
          rw [hrun]
          simp
      · have hrun : get_all_transactions env d =
            ⟨none, .illTyped, [1],
              (get_card_transactions (env 1) 1 default_delay
                default_max_retries).sleeps⟩ := by
          simp [get_all_transactions, hres, hemp, hlt]
        rw [hrun]
        simp
      · have hrun : get_all_transactions env d =
            ⟨none, .illTyped, [1],
              (get_card_transactions (env 1) 1 default_delay
                default_max_retries).sleeps⟩ := by
          simp [get_all_transactions, hres, hemp, hlt]
        rw [hrun]
        simp

/-- C3: if the first mid-run page `k` (with `2 <= k <= total_pages`) is
not accepted — its fetch exhausted all attempts, or the returned page is
falsy or lacks `rows` — while pages `2 .. k-1` all succeeded, the run
returns exactly the concatenation of the rows of pages `1 .. k-1`,
reports the stop at page `k`, and never invokes the fetcher for any page
past `k`. -/
theorem C3_stop_at_failed_page (env : Nat → Nat → Outcome Rec) (d : ℚ)
    (t : Int) (k : Nat)
    (ht : firstTotal env d = some t)
    (hg1 : pageGood env d 1 = true)
    (hk : 2 ≤ k)
    (hkle : (k : Int) ≤ total_pages t)
    (hmid : ∀ p, 2 ≤ p → p < k → pageGood env d p = true)
    (hfail : pageAccepted env d k = false) :
    (get_all_transactions env d).result =
      some (((List.range' 1 (k - 1)).map (consumedRows env d)).flatten) ∧
    (get_all_transactions env d).signal = .stoppedAt k ∧
    (get_all_transactions env d).pagesFetched = List.range' 1 k := by
  obtain ⟨p1, t', rows1, hres, hemp, hts, hrD, hft, hcons1, hacc1⟩ :=
    pageGood_one_elim env d hg1
  have htt : t' = t := by
    rw [hft] at ht
    exact Option.some.inj ht
  subst htt
  rw [get_all_transactions_loop env d p1 t' rows1 hres hemp hts hrD]
  obtain ⟨k2, rfl⟩ : ∃ k2, k = k2 + 2 := ⟨k - 2, by omega⟩
  have hktn : k2 + 2 ≤ (total_pages t').toNat := by omega
  obtain ⟨j, hj⟩ : ∃ j, (total_pages t').toNat - 1 = k2 + (j + 1) :=
    ⟨(total_pages t').toNat - 1 - (k2 + 1), by omega⟩
  have hsplit : List.range' 2 ((total_pages t').toNat - 1) =
      List.range' 2 k2 ++ (k2 + 2) :: List.range' (k2 + 3) j := by
    rw [hj]
    have h0 := List.range'_append_1 2 k2 (j + 1)
    rw [List.range'_succ] at h0
    rw [show 2 + k2 = k2 + 2 by omega] at h0
    rw [show k2 + 2 + 1 = k2 + 3 by omega] at h0
    rw [show k2 + (j + 1) = j + 1 + k2 by omega]
    exact h0.symm
  rw [hsplit]
  rw [pageLoop_stop env d (List.range' 2 k2) (k2 + 2) (List.range' (k2 + 3) j)
    rows1 [1] _
    (fun p hp => by
      rw [List.mem_range'_1] at hp
      exact ⟨by omega, hmid p (by omega) (by omega)⟩)
    (by omega) hfail]
  refine ⟨?_, rfl, ?_⟩
  · have hr1 : List.range' 1 (k2 + 2 - 1) = 1 :: List.range' 2 k2 := by
      have : k2 + 2 - 1 = k2 + 1 := by omega
      rw [this, List.range'_succ]
    rw [hr1]
    simp [hcons1]
  · have hr2 : List.range' 1 (k2 + 2) = (1 :: List.range' 2 k2) ++ [k2 + 2] := by
      have h1 : k2 + 2 = (k2 + 1) + 1 := by omega
      rw [h1, List.range'_concat, List.range'_succ]
      have h2 : 1 + 1 * (k2 + 1) = k2 + 2 := by omega
      rw [h2]
    rw [hr2]
    simp

/-- C2 (amended): `total_pages` equals the ceiling of `total / 50`
(page size fixed at 50), and a run in which every fetched page succeeds
issues exactly `max total_pages 1` fetch calls: `total_pages` of them
when `total_pages >= 1`, but still the single page-1 call when
`total_pages = 0`. -/
theorem C2_amended_page_count (env : Nat → Nat → Outcome Rec) (d : ℚ)
    (t : Int)
    (ht : firstTotal env d = some t)
    (h0 : 0 ≤ t)
    (hg1 : pageGood env d 1 = true)
    (hgood : ∀ p : Nat, 2 ≤ p → (p : Int) ≤ total_pages t →
      pageGood env d p = true) :
    total_pages t = ⌈(t : ℚ) / 50⌉ ∧
    (get_all_transactions env d).pagesFetched.length =
      max (total_pages t).toNat 1 := by
  refine ⟨total_pages_eq_ceil t, ?_⟩
  obtain ⟨p1, t', rows1, hres, hemp, hts, hrD, hft, _, _⟩ :=
    pageGood_one_elim env d hg1
  have htt : t' = t := by
    rw [hft] at ht
    exact Option.some.inj ht
  subst htt
  rw [get_all_transactions_loop env d p1 t' rows1 hres hemp hts hrD]
  rw [pageLoop_complete env d _ rows1 [1] _ (fun p hp => by
    rw [List.mem_range'_1] at hp
    exact ⟨by omega, hgood p (by omega) (by omega)⟩)]
  simp [List.length_range']
  omega

/-- C1 witness: a page-1-fails run returns `[]`, the concatenation over
the (empty) set of accepted pages. -/
theorem C1_witness :
    ([] : List Nat) =
      (((get_all_transactions envAllExn 1).pagesFetched.filter
        (fun p => pageAccepted envAllExn 1 p)).map
        (consumedRows envAllExn 1)).flatten :=
  ((C1_ordered_concatenation envAllExn 1).2 [] rfl).1

/-- C2 counterexample: with `total = 0` no fetch fails and
`total_pages = 0`, yet the driver still issues one fetch call (page 1),
so the run does not issue exactly `total_pages` calls. -/
theorem C2_counterexample :
    (get_all_transactions envTotalZero 1).signal = Signal.completed ∧
    firstTotal envTotalZero 1 = some 0 ∧
    total_pages 0 = 0 ∧
    (get_all_transactions envTotalZero 1).pagesFetched.length = 1 :=
  ⟨rfl, rfl, by decide, rfl⟩

/-- C2 witness: scenario with `total = 120`, no failures: three fetch
calls. -/
theorem C2_witness :
    (get_all_transactions envScenarioA 1).pagesFetched.length =
      max (total_pages 120).toNat 1 :=
  (C2_amended_page_count envScenarioA 1 120 rfl (by decide) (by decide)
    (fun p h2 h3 => by
      have ht3 : total_pages 120 = 3 := by decide
      rw [ht3] at h3
      have hp3 : p = 2 ∨ p = 3 := by omega
      rcases hp3 with rfl | rfl <;> decide)).2

/-- C3 witness: `total = 120`, page 2 fails all attempts: the run stops
at page 2. -/
theorem C3_witness :
    (get_all_transactions envScenarioB 1).signal = Signal.stoppedAt 2 :=
  (C3_stop_at_failed_page envScenarioB 1 120 2 rfl (by decide) (by decide)
    (by decide) (fun p h1 h2 => absurd (Nat.lt_of_lt_of_le h2 h1) (by omega))
    (by decide)).2.1

/-- C4 witness: a run whose every request raises prints the credentials
hint. -/
theorem C4_witness :
    (get_all_transactions envAllExn 1).signal = Signal.initialFetchFailed :=
  (C4_first_page_failure envAllExn 1 rfl).2.1

/-- C5 counterexample: page 1 succeeds with the empty JSON object `{}`,
which lacks `total`, yet the driver reports the initial-fetch-failed
credentials hint, not the unexpected-response-format message. -/
theorem C5_counterexample :
    (fetchedPage envEmptyPage 1 1).result = some [] ∧
    List.lookup totalKey ([] : PageD Nat) = none ∧
    (get_all_transactions envEmptyPage 1).signal =
      Signal.initialFetchFailed ∧
    (get_all_transactions envEmptyPage 1).signal ≠
      Signal.unexpectedFormat :=
  ⟨rfl, rfl, rfl, by decide⟩

/-- C5 witness: a truthy page with `rows` but no `total` produces the
unexpected-format signal. -/
theorem C5_witness :
    (get_all_transactions envRowsOnly 1).signal = Signal.unexpectedFormat :=
  (C5_amended_no_total envRowsOnly 1 [(rowsKey, Jval.arr [5])] rfl rfl
    (by decide)).2.1

/-- C7 counterexample: attempt 0 returns HTTP 201 (a 2xx status) with a
well-formed body, but the fetcher classifies it as a retryable failure
(the code tests for status 200, not the 2xx class): the call issues all
3 requests and returns `None` instead of succeeding at attempt 0. -/
theorem C7_counterexample :
    envStatus201 0 = Outcome.resp 201 (some [(totalKey, Jval.num 5)]) ∧
    (get_card_transactions envStatus201 1 1 3).result = none ∧
    (get_card_transactions envStatus201 1 1 3).requests = 3 :=
  ⟨rfl, rfl, rfl⟩

/-- C7 witness: a 200-status well-formed body succeeds on its own
attempt. -/
theorem C7_witness :
    attemptLoopGo envOk200 (1 : ℚ) 3 [0, 1, 2] =
      ⟨some [(totalKey, Jval.num 7)], [], 1⟩ :=
  (C7_amended_classification envOk200 1 3 0 [1, 2]).1
    [(totalKey, Jval.num 7)] rfl

/-- C8 witness: a call with 3 attempts issues at most 3 requests. -/
theorem C8_witness :
    (get_card_transactions envExnPage 1 (1 : ℚ) 3).requests ≤ 3 :=
  (C8_bounded_requests envExnPage 1 1 3 (by decide)).1

/-- C10: a page-1 fetch that succeeds (HTTP 200, body parses to the
empty JSON object) is reported through the initial-fetch-failed
credentials path with an empty result, not as an unexpected response
format, because the driver tests `not first_page` — the truthiness of
the returned dict — rather than a distinct failure marker. -/
theorem C10_falsy_success_reported_as_failure :
    (fetchedPage envEmptyPage 1 1).result = some [] ∧
    (get_all_transactions envEmptyPage 1).result = some [] ∧
    (get_all_transactions envEmptyPage 1).signal =
      Signal.initialFetchFailed ∧
    (get_all_transactions envEmptyPage 1).signal ≠
      Signal.unexpectedFormat ∧
    (get_all_transactions envEmptyPage 1).pagesFetched = [1] :=
  ⟨rfl, rfl, rfl, by decide, rfl⟩

end CardQuery
